import Mathlib

/-!
Shallow embedding of `src/git_flow_library/git_flow_library.py`
(class `GitFlowLibrary`), a thin wrapper around the `git flow` command-line
extension.  External processes are modelled by an environment `GitEnv` mapping
a command (argument list) and a working directory to an outcome: either an
exception while launching the process, or an exit code together with the
captured standard output.  Each library operation is embedded as a function
that returns its Python result (`Except PyError`) paired with the trace of
commands it handed to `subprocess.run`, so that statements about "no process
is spawned before the error" are expressible.  Filesystem paths, for
`get_git_root`, are modelled as lists of components of the already-resolved
absolute path, the empty list being the filesystem root.
-/

namespace GitFlowLib

/-- A command, as the argument list passed to `subprocess.run`. -/
abbrev Cmd := List String

/-- Outcome of handing a command to `subprocess.run`: either an exception is
raised while launching the process (e.g. the working directory does not
exist, or the executable is missing), or the process runs and exits with a
return code and a captured standard output. -/
inductive ProcOutcome where
  | exn
  | exit (returncode : Int) (stdout : String)
deriving DecidableEq

/-- The external world: what running a given command in a given working
directory yields. -/
structure GitEnv where
  run : Cmd → String → ProcOutcome

/-- The Python exceptions the library can raise: `ValueError` for usage
errors, `RuntimeError` for invalid-state errors, `CalledProcessError` from
`subprocess.run(..., check=True)` on a non-zero exit, and any OS-level error
propagating out of an uncaught process launch. -/
inductive PyError where
  | valueError (msg : String)
  | runtimeError (msg : String)
  | calledProcessError (cmd : Cmd) (returncode : Int)
  | osError
deriving DecidableEq

/-- Python's `str.strip()`: remove leading and trailing whitespace.  Defined
by structural recursion on the character list so that concrete instances
evaluate inside the kernel. -/
def py_strip (s : String) : String :=
  ⟨((s.data.dropWhile Char.isWhitespace).reverse.dropWhile Char.isWhitespace).reverse⟩

/-- The query spawned by `is_gitflow_enabled`:
`['git', 'config', '--get-regexp', '^gitflow']`. -/
def probe_cmd : Cmd := ["git", "config", "--get-regexp", "^gitflow"]

/-- `GitFlowLibrary.is_gitflow_enabled`.  Runs the probe with standard error
discarded and standard output captured, and returns
`result.returncode == 0 and bool(result.stdout.strip())`; the surrounding
`try`/`except Exception` turns any exception into `False`.  The embedding is
a total function into `Bool`, mirroring that the Python never raises. -/
def is_gitflow_enabled (env : GitEnv) (directory : String) : Bool :=
  match env.run probe_cmd directory with
  | .exn => false
  | .exit rc out => rc == 0 && decide (py_strip out ≠ "")

/-- Python truthiness of an optional string argument: `None` and the empty
string are falsy, any other string is truthy. -/
def truthy : Option String → Bool
  | none => false
  | some s => decide (s ≠ "")

/-- Models the idiom `if x: cmd.append(x)` for an optional string argument
`x`: the argument is appended only when it is present and non-empty. -/
def optArg : Option String → List String
  | none => []
  | some s => if s = "" then [] else [s]

/-- `subprocess.run(cmd, cwd=directory, check=True)`: raises
`CalledProcessError` (carrying the command and the return code) on a non-zero
exit status; an exception while launching the process propagates uncaught. -/
def run_check (env : GitEnv) (cmd : Cmd) (directory : String) : Except PyError Unit :=
  match env.run cmd directory with
  | .exn => .error .osError
  | .exit rc _ => if rc = 0 then .ok () else .error (.calledProcessError cmd rc)

/-- The command built by `GitFlowLibrary.init`: `['git', 'flow', 'init']`,
with `-d` appended when `defaults` is true. -/
def init_cmd (defaults : Bool) : Cmd :=
  ["git", "flow", "init"] ++ (if defaults then ["-d"] else [])

/-- The command built by `GitFlowLibrary.start`:
`['git', 'flow', branch_type, 'start']`, then `-f` if `fetch`, then the
(unconditionally appended) name, then the base if truthy. -/
def start_cmd (branch_type name : String) (base : Option String) (fetch : Bool) : Cmd :=
  ["git", "flow", branch_type, "start"] ++ (if fetch then ["-f"] else [])
    ++ [name] ++ optArg base

/-- The command built by `GitFlowLibrary.checkout`:
`['git', 'flow', branch_type, 'checkout']`, then the name if truthy. -/
def checkout_cmd (branch_type : String) (name : Option String) : Cmd :=
  ["git", "flow", branch_type, "checkout"] ++ optArg name

/-- The command built by `GitFlowLibrary.finish` on its non-raising paths:
`['git', 'flow', branch_type, 'finish']`, then the name if truthy, then `-F`
if `fetch`, then `-k` if `keep`, then `['-m', tag_message]` if the tag
message is truthy (which the caller has validated against the branch type). -/
def finish_cmd (branch_type : String) (name : Option String) (fetch keep : Bool)
    (tag_message : Option String) : Cmd :=
  ["git", "flow", branch_type, "finish"] ++ optArg name
    ++ (if fetch then ["-F"] else []) ++ (if keep then ["-k"] else [])
    ++ (if truthy tag_message then ["-m", tag_message.getD ""] else [])

/-- `GitFlowLibrary.init`: logs, then runs `init_cmd` with `check=True`.  The
second component is the trace of commands handed to `subprocess.run`. -/
def init (env : GitEnv) (directory : String) (defaults : Bool) :
    Except PyError Unit × List Cmd :=
  (run_check env (init_cmd defaults) directory, [init_cmd defaults])

/-- `GitFlowLibrary.start`: runs `start_cmd` with `check=True`. -/
def start (env : GitEnv) (directory branch_type name : String)
    (base : Option String) (fetch : Bool) : Except PyError Unit × List Cmd :=
  (run_check env (start_cmd branch_type name base fetch) directory,
   [start_cmd branch_type name base fetch])

/-- `GitFlowLibrary.checkout`: runs `checkout_cmd` with `check=True`. -/
def checkout (env : GitEnv) (directory branch_type : String) (name : Option String) :
    Except PyError Unit × List Cmd :=
  (run_check env (checkout_cmd branch_type name) directory,
   [checkout_cmd branch_type name])

/-- `GitFlowLibrary.finish`: builds the finish command; if the tag message is
truthy and the branch type is neither release nor hotfix, raises `ValueError`
without spawning anything; otherwise runs the command with `check=True`. -/
def finish (env : GitEnv) (directory branch_type : String) (name : Option String)
    (fetch keep : Bool) (tag_message : Option String) :
    Except PyError Unit × List Cmd :=
  if truthy tag_message && !(branch_type == "release" || branch_type == "hotfix") then
    (.error (.valueError "tag_message is only valid for release or hotfix branches"), [])
  else
    (run_check env (finish_cmd branch_type name fetch keep tag_message) directory,
     [finish_cmd branch_type name fetch keep tag_message])

/-- The `RuntimeError` message of `get_config_value` when gitflow is not
enabled (the f-string interpolates the directory). -/
def read_err_msg (directory : String) : String :=
  "Tried to read gitflow config in " ++ directory ++ " but gitflow not enabled!"

/-- The `RuntimeError` message of `set_branch_base` when gitflow is not
enabled (the f-string interpolates the directory). -/
def set_err_msg (directory : String) : String :=
  "Tried to set gitflow branch base in " ++ directory ++ " but gitflow not enabled!"

/-- The command spawned by `get_config_value`:
`['git', 'config', 'gitflow.<key>']`. -/
def config_read_cmd (key : String) : Cmd := ["git", "config", "gitflow." ++ key]

/-- `GitFlowLibrary.get_config_value`: raises `RuntimeError` naming the
directory when `is_gitflow_enabled` is false; otherwise runs the config read
(without checking its exit status), strips the captured output, and returns
`None` when the stripped output is empty, the stripped value otherwise. -/
def get_config_value (env : GitEnv) (key directory : String) :
    Except PyError (Option String) × List Cmd :=
  if is_gitflow_enabled env directory then
    match env.run (config_read_cmd key) directory with
    | .exn => (.error .osError, [probe_cmd, config_read_cmd key])
    | .exit _ out =>
        (.ok (if py_strip out = "" then none else some (py_strip out)),
         [probe_cmd, config_read_cmd key])
  else
    (.error (.runtimeError (read_err_msg directory)), [probe_cmd])

/-- The mutation command spawned by `set_branch_base`:
`['git', 'flow', 'config', 'base', '--set', branch, base]`. -/
def set_base_cmd (branch base : String) : Cmd :=
  ["git", "flow", "config", "base", "--set", branch, base]

/-- `GitFlowLibrary.set_branch_base`: raises `RuntimeError` naming the
directory when `is_gitflow_enabled` is false, spawning nothing beyond the
probe; otherwise runs the mutation command without `check=True` (its exit
status is ignored). -/
def set_branch_base (env : GitEnv) (branch base directory : String) :
    Except PyError Unit × List Cmd :=
  if is_gitflow_enabled env directory then
    match env.run (set_base_cmd branch base) directory with
    | .exn => (.error .osError, [probe_cmd, set_base_cmd branch base])
    | .exit _ _ => (.ok (), [probe_cmd, set_base_cmd branch base])
  else
    (.error (.runtimeError (set_err_msg directory)), [probe_cmd])

/-- A canonical absolute path, as the list of its components after
`Path(directory).resolve()`; `[]` is the filesystem root. -/
abbrev FsPath := List String

/-- `pathlib.Path.parent` on canonical absolute paths: drop the last
component; the root is its own parent (`[].dropLast = []`). -/
def py_parent (p : FsPath) : FsPath := p.dropLast

/-- `GitFlowLibrary.get_git_root`, applied to the resolved starting path.
`fs d` models `(d / '.git').is_dir()`.  The Python loop
`while path != path.parent` runs while the path is not the root, returns
`path / '.git'` as soon as the check succeeds, steps to the parent otherwise,
and returns `None` once the root is reached (the root itself is never
checked, since the loop guard fails there). -/
def get_git_root (fs : FsPath → Bool) (p : FsPath) : Option FsPath :=
  if h : p = [] then none
  else if fs p then some (p ++ [".git"])
  else get_git_root fs (py_parent p)
termination_by p.length
decreasing_by
  simp only [py_parent, List.length_dropLast]
  exact Nat.sub_lt (List.length_pos.mpr h) Nat.one_pos

/-- The directories the `get_git_root` loop examines, in order: the resolved
starting directory itself, then each successive parent, stopping before (and
excluding) the filesystem root. -/
def ancestors (p : FsPath) : List FsPath :=
  if h : p = [] then []
  else p :: ancestors (py_parent p)
termination_by p.length
decreasing_by
  simp only [py_parent, List.length_dropLast]
  exact Nat.sub_lt (List.length_pos.mpr h) Nat.one_pos

/-- Fuel-bounded version of the `get_git_root` loop: `none` means the fuel
ran out before the loop finished, `some r` means the loop finished with
result `r` within the given number of iterations. -/
def get_git_root_fuel (fs : FsPath → Bool) : Nat → FsPath → Option (Option FsPath)
  | 0, _ => none
  | n + 1, p =>
    if p = [] then some none
    else if fs p then some (some (p ++ [".git"]))
    else get_git_root_fuel fs n (py_parent p)

/-- The default value of `get_git_root`'s `directory` parameter in the source
signature `def get_git_root(directory: str | Path)`: there is none (`none`
here means "no default declared"), even though the docstring documents
"Defaults to current working directory", so calling the function without an
argument raises `TypeError` instead of using the current working directory. -/
def get_git_root_directory_default : Option String := none

/-- An environment in which every spawned process succeeds and prints a
gitflow configuration line. -/
def envEnabled : GitEnv := ⟨fun _ _ => .exit 0 "gitflow.branch.master main\n"⟩

/-- An environment in which every spawned process exits with status 1 and
prints nothing (e.g. no gitflow configuration present). -/
def envDisabled : GitEnv := ⟨fun _ _ => .exit 1 ""⟩

/-- An environment in which every spawned process exits with status 128. -/
def envFail : GitEnv := ⟨fun _ _ => .exit 128 ""⟩

/-- C1: For every directory argument, `is_gitflow_enabled` never raises (it is
a total `Bool`-valued function of the process outcome): it returns `true`
exactly when the spawned `git config --get-regexp ^gitflow` query exits with
status zero and its captured standard output is non-empty after stripping
whitespace, and it returns `false` when launching the process raises, when the
query exits non-zero, or when the stripped output is empty. -/
theorem is_gitflow_enabled_spec (env : GitEnv) (directory : String) :
    (is_gitflow_enabled env directory = true ↔
      ∃ out, env.run probe_cmd directory = .exit 0 out ∧ py_strip out ≠ "") ∧
    (env.run probe_cmd directory = .exn → is_gitflow_enabled env directory = false) ∧
    (∀ rc out, env.run probe_cmd directory = .exit rc out → rc ≠ 0 →
      is_gitflow_enabled env directory = false) ∧
    (∀ rc out, env.run probe_cmd directory = .exit rc out → py_strip out = "" →
      is_gitflow_enabled env directory = false) := by
  unfold is_gitflow_enabled
  refine ⟨?_, ?_, ?_, ?_⟩
  · cases h : env.run probe_cmd directory with
    | exn => simp
    | exit rc out =>
        simp only [Bool.and_eq_true, beq_iff_eq, decide_eq_true_eq,
          ProcOutcome.exit.injEq]
        constructor
        · rintro ⟨hrc, hout⟩
          exact ⟨out, ⟨hrc, rfl⟩, hout⟩
        · rintro ⟨o, ⟨hrc, ho⟩, hne⟩
          subst ho
          exact ⟨hrc, hne⟩
  · intro h; rw [h]
  · intro rc out h hrc; rw [h]; simp [hrc]
  · intro rc out h hout; rw [h]; simp [hout]

/-- C1 witness: in a concrete environment whose probe exits 0 with a gitflow
configuration line on standard output, the check returns true. -/
theorem is_gitflow_enabled_spec_witness :
    is_gitflow_enabled envEnabled "/repo" = true :=
  (is_gitflow_enabled_spec envEnabled "/repo").1.mpr
    ⟨"gitflow.branch.master main\n", rfl, by decide⟩

/-- C2: When a (non-empty, hence truthy) tag message is supplied and the
branch type is neither release nor hotfix, `finish` raises `ValueError` with
an empty spawn trace, i.e. before any external process is spawned; when the
branch type is release or hotfix, no `ValueError` is raised and the spawned
command is the finish command with the pair `-m <message>` appended. -/
theorem finish_tag_message_spec (env : GitEnv) (directory branch_type : String)
    (name : Option String) (fetch keep : Bool) (t : String) (ht : t ≠ "") :
    (branch_type ≠ "release" → branch_type ≠ "hotfix" →
      finish env directory branch_type name fetch keep (some t) =
        (.error (.valueError "tag_message is only valid for release or hotfix branches"),
         [])) ∧
    (branch_type = "release" ∨ branch_type = "hotfix" →
      (∀ m, (finish env directory branch_type name fetch keep (some t)).1 ≠
        .error (.valueError m)) ∧
      (finish env directory branch_type name fetch keep (some t)).2 =
        [["git", "flow", branch_type, "finish"] ++ optArg name
          ++ (if fetch then ["-F"] else []) ++ (if keep then ["-k"] else [])
          ++ ["-m", t]]) := by
  have htr : truthy (some t) = true := by simp [truthy, ht]
  constructor
  · intro h1 h2
    unfold finish
    rw [if_pos]
    simp [htr, h1, h2]
  · intro hv
    have hcond : (truthy (some t) &&
        !(branch_type == "release" || branch_type == "hotfix")) = false := by
      rcases hv with h | h <;> simp [h]
    unfold finish
    rw [if_neg (by rw [hcond]; exact Bool.false_ne_true)]
    refine ⟨?_, ?_⟩
    · intro m
      unfold run_check
      cases env.run (finish_cmd branch_type name fetch keep (some t)) directory with
      | exn => simp
      | exit rc out =>
          by_cases hrc : rc = 0 <;> simp [hrc]
    · simp [finish_cmd, htr]

/-- C2 witness: with branch type `feature` and tag message `v1.0`, `finish`
returns the `ValueError` and spawns nothing. -/
theorem finish_tag_message_spec_witness :
    finish envDisabled "/repo" "feature" none false false (some "v1.0") =
      (.error (.valueError "tag_message is only valid for release or hotfix branches"),
       []) :=
  (finish_tag_message_spec envDisabled "/repo" "feature" none false false "v1.0"
    (by decide)).1 (by decide) (by decide)

/-- C3: `get_config_value` returns the invalid-state `RuntimeError` (whose
message interpolates the directory and says gitflow is not enabled) exactly
when the enabled-check for the directory is false; when the check passes and
the config read produces output, the result is the stripped standard output,
with `none` — never `some ""` — when the stripped output is empty. -/
theorem get_config_value_spec (env : GitEnv) (key directory : String) :
    ((get_config_value env key directory).1 =
        .error (.runtimeError (read_err_msg directory)) ↔
      is_gitflow_enabled env directory = false) ∧
    (read_err_msg directory =
      "Tried to read gitflow config in " ++ directory ++ " but gitflow not enabled!") ∧
    (is_gitflow_enabled env directory = true →
      ∀ rc out, env.run (config_read_cmd key) directory = .exit rc out →
        (get_config_value env key directory).1 =
          .ok (if py_strip out = "" then none else some (py_strip out))) ∧
    (∀ v, (get_config_value env key directory).1 = .ok v → v ≠ some "") := by
  refine ⟨?_, rfl, ?_, ?_⟩
  · unfold get_config_value
    cases he : is_gitflow_enabled env directory with
    | false => simp [he]
    | true =>
        simp only [he, if_true]
        cases h : env.run (config_read_cmd key) directory with
        | exn => simp
        | exit rc out => simp
  · intro he rc out h
    unfold get_config_value
    rw [if_pos (by simp [he]), h]
  · intro v hv
    unfold get_config_value at hv
    cases he : is_gitflow_enabled env directory with
    | false => simp [he] at hv
    | true =>
        simp only [he, if_true] at hv
        cases h : env.run (config_read_cmd key) directory with
        | exn => rw [h] at hv; simp at hv
        | exit rc out =>
            rw [h] at hv
            simp only [Except.ok.injEq] at hv
            subst hv
            by_cases hs : py_strip out = "" <;> simp [hs]

/-- C3 witness: in a concrete enabled environment whose config read prints a
value with a trailing newline, the result is the stripped value. -/
theorem get_config_value_spec_witness :
    (get_config_value envEnabled "branch.master" "/repo").1 =
      .ok (some "gitflow.branch.master main") := by
  have h := (get_config_value_spec envEnabled "branch.master" "/repo").2.2.1
    (by decide) 0 "gitflow.branch.master main\n" rfl
  rw [h]
  rfl

/-- C4: each of `init`, `start`, `checkout` and `finish` propagates the
process failure — a `CalledProcessError` carrying the command and the return
code — whenever its spawned command exits with a non-zero status (for
`finish`, whenever the command is actually spawned, i.e. the tag-message
validation did not raise first); none of the four returns success there. -/
theorem lifecycle_propagates_failure :
    (∀ (env : GitEnv) (directory : String) (defaults : Bool) (rc : Int) out,
      rc ≠ 0 → env.run (init_cmd defaults) directory = .exit rc out →
      (init env directory defaults).1 =
        .error (.calledProcessError (init_cmd defaults) rc)) ∧
    (∀ (env : GitEnv) (directory branch_type name : String) (base : Option String)
      (fetch : Bool) (rc : Int) out,
      rc ≠ 0 → env.run (start_cmd branch_type name base fetch) directory = .exit rc out →
      (start env directory branch_type name base fetch).1 =
        .error (.calledProcessError (start_cmd branch_type name base fetch) rc)) ∧
    (∀ (env : GitEnv) (directory branch_type : String) (name : Option String)
      (rc : Int) out,
      rc ≠ 0 → env.run (checkout_cmd branch_type name) directory = .exit rc out →
      (checkout env directory branch_type name).1 =
        .error (.calledProcessError (checkout_cmd branch_type name) rc)) ∧
    (∀ (env : GitEnv) (directory branch_type : String) (name : Option String)
      (fetch keep : Bool) (tag_message : Option String) (rc : Int) out,
      (truthy tag_message = true → branch_type = "release" ∨ branch_type = "hotfix") →
      rc ≠ 0 →
      env.run (finish_cmd branch_type name fetch keep tag_message) directory =
        .exit rc out →
      (finish env directory branch_type name fetch keep tag_message).1 =
        .error (.calledProcessError (finish_cmd branch_type name fetch keep tag_message) rc)) := by
  refine ⟨?_, ?_, ?_, ?_⟩
  · intro env directory defaults rc out hrc h
    unfold init run_check
    rw [h]
    simp [hrc]
  · intro env directory branch_type name base fetch rc out hrc h
    unfold start run_check
    rw [h]
    simp [hrc]
  · intro env directory branch_type name rc out hrc h
    unfold checkout run_check
    rw [h]
    simp [hrc]
  · intro env directory branch_type name fetch keep tag_message rc out htag hrc h
    have hcond : (truthy tag_message &&
        !(branch_type == "release" || branch_type == "hotfix")) = false := by
      cases htr : truthy tag_message with
      | false => simp
      | true => rcases htag htr with hb | hb <;> simp [hb]
    unfold finish
    rw [if_neg (by rw [hcond]; exact Bool.false_ne_true)]
    unfold run_check
    rw [h]
    simp [hrc]

/-- C4 witness: in an environment where every command exits 128, `init`
surfaces the `CalledProcessError` for its command. -/
theorem lifecycle_propagates_failure_witness :
    (init envFail "/repo" true).1 =
      .error (.calledProcessError (init_cmd true) 128) :=
  lifecycle_propagates_failure.1 envFail "/repo" true 128 "" (by decide) rfl

/-- C7: the command constructed by `start` is exactly
`['git', 'flow', branch_type, 'start']`, then `-f` exactly when the fetch
flag is set, then the name as a positional argument, then the base as a final
positional argument exactly when a base is supplied (per the library's
falsy-as-absent convention, a supplied base is a `some` with a non-empty
string, which the hypothesis records). -/
theorem start_cmd_spec (branch_type name : String) (base : Option String)
    (fetch : Bool) (hbase : ∀ b, base = some b → b ≠ "") :
    start_cmd branch_type name base fetch =
      ["git", "flow", branch_type, "start"] ++ (if fetch then ["-f"] else [])
        ++ [name] ++ base.toList := by
  cases base with
  | none => simp [start_cmd, optArg]
  | some b => simp [start_cmd, optArg, hbase b rfl]

/-- C7 witness: starting `feature` `foo` from base `develop` with fetch
builds the exact expected argument list. -/
theorem start_cmd_spec_witness :
    start_cmd "feature" "foo" (some "develop") true =
      ["git", "flow", "feature", "start", "-f", "foo", "develop"] := by
  have h := start_cmd_spec "feature" "foo" (some "develop") true
    (fun b hb => by simp only [Option.some.injEq] at hb; subst hb; decide)
  rw [h]
  rfl

/-- C8: when the enabled-check is false, `set_branch_base` returns the
invalid-state `RuntimeError` whose message interpolates the directory, and
the mutation command `git flow config base --set <branch> <base>` is not in
its spawn trace (only the enabled-probe is); the mutation command is spawned
exactly when the enabled-check passes. -/
theorem set_branch_base_spec (env : GitEnv) (branch base directory : String) :
    (is_gitflow_enabled env directory = false →
      (set_branch_base env branch base directory).1 =
        .error (.runtimeError (set_err_msg directory)) ∧
      set_base_cmd branch base ∉ (set_branch_base env branch base directory).2) ∧
    (set_err_msg directory =
      "Tried to set gitflow branch base in " ++ directory ++ " but gitflow not enabled!") ∧
    (is_gitflow_enabled env directory = true →
      (set_branch_base env branch base directory).2 =
        [probe_cmd, set_base_cmd branch base]) ∧
    (set_base_cmd branch base = ["git", "flow", "config", "base", "--set", branch, base]) := by
  refine ⟨?_, rfl, ?_, rfl⟩
  · intro he
    unfold set_branch_base
    rw [if_neg (by simp [he])]
    refine ⟨rfl, ?_⟩
    simp [set_base_cmd, probe_cmd]
  · intro he
    unfold set_branch_base
    rw [if_pos (by simp [he])]
    cases env.run (set_base_cmd branch base) directory <;> rfl

/-- C8 witness: on a concrete disabled environment, `set_branch_base` raises
the invalid-state error and its spawn trace does not contain the mutation
command. -/
theorem set_branch_base_spec_witness :
    (set_branch_base envDisabled "feature" "main" "/repo").1 =
      .error (.runtimeError (set_err_msg "/repo")) ∧
    set_base_cmd "feature" "main" ∉
      (set_branch_base envDisabled "feature" "main" "/repo").2 :=
  (set_branch_base_spec envDisabled "feature" "main" "/repo").1 (by decide)

/-- C9: empty strings behave as absent optional arguments: `checkout` with an
empty name builds the same command as with no name; `finish` with an empty
name behaves exactly as with no name; `start` with an empty base builds the
same command as with no base; and `finish` with an empty tag message behaves
exactly as with no tag message — in particular it appends no `-m` and raises
no `ValueError` for any branch type, including `feature`. -/
theorem empty_string_as_absent (env : GitEnv) (directory branch_type name : String)
    (nameOpt : Option String) (fetch keep : Bool) (tag_message : Option String) :
    checkout_cmd branch_type (some "") = checkout_cmd branch_type none ∧
    finish env directory branch_type (some "") fetch keep tag_message =
      finish env directory branch_type none fetch keep tag_message ∧
    start_cmd branch_type name (some "") fetch = start_cmd branch_type name none fetch ∧
    finish env directory branch_type nameOpt fetch keep (some "") =
      finish env directory branch_type nameOpt fetch keep none ∧
    (∀ m, (finish env directory branch_type nameOpt fetch keep (some "")).1 ≠
      .error (.valueError m)) := by
  have hopt : optArg (some "") = optArg none := by simp [optArg]
  have htr : truthy (some "") = truthy none := by simp [truthy]
  refine ⟨?_, ?_, ?_, ?_, ?_⟩
  · simp [checkout_cmd, hopt]
  · unfold finish
    rw [show finish_cmd branch_type (some "") fetch keep tag_message =
      finish_cmd branch_type none fetch keep tag_message by simp [finish_cmd, hopt]]
  · simp [start_cmd, hopt]
  · unfold finish
    rw [show finish_cmd branch_type nameOpt fetch keep (some "") =
      finish_cmd branch_type nameOpt fetch keep none by simp [finish_cmd, htr]]
    rw [htr]
  · intro m
    unfold finish
    rw [if_neg (by simp [truthy])]
    unfold run_check
    cases env.run (finish_cmd branch_type nameOpt fetch keep (some "")) directory with
    | exn => simp
    | exit rc out => by_cases hrc : rc = 0 <;> simp [hrc]

lemma get_git_root_eq_find_aux (fs : FsPath → Bool) :
    ∀ (n : Nat) (p : FsPath), p.length ≤ n →
      get_git_root fs p = ((ancestors p).find? fs).map (fun d => d ++ [".git"]) := by
  intro n
  induction n with
  | zero =>
      intro p hp
      have hp0 : p = [] := List.length_eq_zero.mp (Nat.le_zero.mp hp)
      subst hp0
      rw [get_git_root, ancestors]
      simp
  | succ n ih =>
      intro p hp
      by_cases h : p = []
      · subst h
        rw [get_git_root, ancestors]
        simp
      · rw [get_git_root, ancestors]
        rw [dif_neg h, dif_neg h]
        cases hf : fs p with
        | true => simp [hf]
        | false =>
            rw [if_neg Bool.false_ne_true, List.find?_cons_of_neg _ (by simp [hf])]
            exact ih (py_parent p) (by simp [py_parent, List.length_dropLast]; omega)

lemma ancestors_eq_iterates :
    ∀ (n : Nat) (p : FsPath), p.length = n →
      ancestors p = (List.range n).map (fun i => py_parent^[i] p) := by
  intro n
  induction n with
  | zero =>
      intro p hp
      have hp0 : p = [] := List.length_eq_zero.mp hp
      subst hp0
      rw [ancestors]
      simp
  | succ n ih =>
      intro p hp
      have h : p ≠ [] := by
        intro hc
        subst hc
        simp at hp
      rw [ancestors, dif_neg h, List.range_succ_eq_map]
      simp only [List.map_cons, Function.iterate_zero, id_eq, List.map_map]
      congr 1
      rw [ih (py_parent p) (by simp [py_parent, List.length_dropLast]; omega)]
      simp [Function.comp_def, Function.iterate_succ_apply]

/-- C5: `get_git_root`, applied to the resolved path, examines the resolved
directory itself and then each successive parent in order (the `ancestors`
chain, which is exactly the iterated-parent sequence, stopping before the
filesystem root, the directory equal to its own parent): it returns
`d ++ ['.git']` for the first examined directory `d` whose `.git`
subdirectory exists, and `none` when no examined directory has one. -/
theorem get_git_root_spec (fs : FsPath → Bool) (p : FsPath) :
    get_git_root fs p = ((ancestors p).find? fs).map (fun d => d ++ [".git"]) ∧
    ancestors p = (List.range p.length).map (fun i => py_parent^[i] p) :=
  ⟨get_git_root_eq_find_aux fs p.length p le_rfl,
   ancestors_eq_iterates p.length p rfl⟩

lemma iterate_py_parent_nil :
    ∀ (n : Nat) (p : FsPath), p.length ≤ n → py_parent^[n] p = [] := by
  intro n
  induction n with
  | zero =>
      intro p hp
      simp [List.length_eq_zero.mp (Nat.le_zero.mp hp)]
  | succ n ih =>
      intro p hp
      rw [Function.iterate_succ_apply]
      exact ih (py_parent p) (by simp [py_parent, List.length_dropLast]; omega)

lemma get_git_root_fuel_adequate :
    ∀ (n : Nat) (p : FsPath), p.length < n → ∀ fs,
      get_git_root_fuel fs n p = some (get_git_root fs p) := by
  intro n
  induction n with
  | zero => intro p hp; exact absurd hp (Nat.not_lt_zero _)
  | succ n ih =>
      intro p hp fs
      by_cases h : p = []
      · subst h
        rw [get_git_root]
        simp [get_git_root_fuel]
      · rw [get_git_root, dif_neg h]
        cases hf : fs p with
        | true => simp [get_git_root_fuel, h, hf]
        | false =>
            have hlen : 0 < p.length := List.length_pos.mpr h
            rw [if_neg Bool.false_ne_true]
            show (if p = [] then some none
              else if fs p then some (some (p ++ [".git"]))
              else get_git_root_fuel fs n (py_parent p)) = _
            rw [if_neg h, if_neg (by simp [hf] : ¬fs p = true)]
            exact ih (py_parent p) (by simp [py_parent, List.length_dropLast]; omega) fs

/-- C10: the upward walk of `get_git_root` terminates on every input: each
step from a non-root directory strictly decreases the number of path
components, the walk reaches the fixed point `[]` (the root, which is its own
parent) after at most `p.length` steps, and the fuel-bounded loop finishes
within `p.length + 1` iterations with the same result as the total
function. -/
theorem get_git_root_terminates :
    (∀ p : FsPath, p ≠ [] → (py_parent p).length < p.length) ∧
    (∀ p : FsPath, py_parent^[p.length] p = [] ∧ py_parent [] = []) ∧
    (∀ (fs : FsPath → Bool) (p : FsPath),
      get_git_root_fuel fs (p.length + 1) p = some (get_git_root fs p)) := by
  refine ⟨?_, ?_, ?_⟩
  · intro p hp
    simp only [py_parent, List.length_dropLast]
    exact Nat.sub_lt (List.length_pos.mpr hp) Nat.one_pos
  · intro p
    exact ⟨iterate_py_parent_nil p.length p le_rfl, rfl⟩
  · intro fs p
    exact get_git_root_fuel_adequate (p.length + 1) p (Nat.lt_succ_self _) fs

/-- C6: the `directory` parameter of `get_git_root` carries no default value
in the source signature, contrary to the function's own docstring ("Defaults
to current working directory") and to the spec: calling
`GitFlowLibrary.get_git_root()` with no argument raises `TypeError` rather
than using the current working directory. -/
theorem get_git_root_directory_has_no_default :
    get_git_root_directory_default = none := rfl

end GitFlowLib
